import Mathlib

/-!
Shallow embedding of the frxxz-idiom-extractor pipeline core: the
MySQL-backed state store (src/db_manager.py), the stage orchestrator
(src/pipeline.py) and the clip renderer loop (src/video_processor.py).
External collaborators (ffmpeg, WhisperX, Ollama, the file system and
the MySQL server) are modelled as oracle functions supplied alongside
the calls; the two database tables are modelled as in-memory lists.
SQL FLOAT time offsets are modelled as exact rationals (no claim
depends on float rounding) and DATETIME instants as natural-number
ticks.
-/

namespace FrxxzIdiom

/-- One row of the videos table (src/db_manager.py lines 62-73); the
file_path column is UNIQUE and the artifact columns are nullable. -/
structure VideoRecord where
  file_path : String
  file_hash : String
  status : String
  last_updated : Nat
  audio_path : Option String
  transcript_path : Option String
  idioms_path : Option String
deriving Repr, DecidableEq

/-- One row of the idioms_stats table (src/db_manager.py lines 75-86),
with UNIQUE KEY idiom_occurence (word, source_video, timestamp_start). -/
structure IdiomRow where
  word : String
  source_video : String
  timestamp_start : Rat
  timestamp_end : Rat
  clip_path : String
  created_at : Nat
deriving Repr, DecidableEq

/-- The persistent store: the two tables of the frxxz_idiom database. -/
structure DBState where
  videos : List VideoRecord
  idioms_stats : List IdiomRow
deriving Repr, DecidableEq

/-- The artifact columns update_video_status may set
(src/db_manager.py line 152). -/
def allowed_fields : List String := ["audio_path", "transcript_path", "idioms_path"]

/-- Write one artifact column of a videos row by its keyword name; a key
outside allowed_fields never reaches this function in
update_video_status, and here writes nothing. -/
def set_field (r : VideoRecord) (key value : String) : VideoRecord :=
  if key = "audio_path" then { r with audio_path := some value }
  else if key = "transcript_path" then { r with transcript_path := some value }
  else if key = "idioms_path" then { r with idioms_path := some value }
  else r

/-- Read one artifact column of a videos row by its keyword name. -/
def get_field (r : VideoRecord) (key : String) : Option String :=
  if key = "audio_path" then r.audio_path
  else if key = "transcript_path" then r.transcript_path
  else if key = "idioms_path" then r.idioms_path
  else none

/-- The SET clause list built by update_video_status
(src/db_manager.py lines 153-159): status and last_updated always, plus
one clause per keyword argument whose key is in allowed_fields, applied
in call order; keys outside the allowed set produce no clause. -/
def apply_set_clauses (r : VideoRecord) (status : String) (now : Nat)
    (kwargs : List (String × String)) : VideoRecord :=
  kwargs.foldl
    (fun r kv => if kv.1 ∈ allowed_fields then set_field r kv.1 kv.2 else r)
    { r with status := status, last_updated := now }

/-- DBManager.update_video_status (src/db_manager.py lines 150-171): one
UPDATE ... WHERE file_path statement committed as a whole.  dbOk models
the MySQL call succeeding; on Error the method logs and swallows the
exception, leaving the store untouched and raising nothing to the
caller. -/
def update_video_status (dbOk : Bool) (now : Nat) (db : DBState)
    (file_path status : String) (kwargs : List (String × String)) : DBState :=
  if dbOk then
    let videos := db.videos.map fun r =>
      if r.file_path = file_path then apply_set_clauses r status now kwargs else r
    { db with videos := videos }
  else db

/-- DBManager.get_videos_by_status (src/db_manager.py lines 173-182):
SELECT * WHERE status = %s; on Error the method logs and returns the
empty list. -/
def get_videos_by_status (dbOk : Bool) (db : DBState) (status : String) :
    List VideoRecord :=
  if dbOk then db.videos.filter (fun r => r.status = status) else []

/-- DBManager.register_video (src/db_manager.py lines 118-148).  hash is
the get_file_hash oracle, returning the empty string for unreadable or
missing files (lines 93-105).  The existing row is looked up by
file_path; since file_path is UNIQUE, the WHERE id update of line 135
rewrites exactly the rows matching the path.  The fingerprint-change
branch sets file_hash, status pending and last_updated and touches no
artifact column; the unchanged branch performs no write; an unseen path
is inserted with status pending.  dbOk models the MySQL calls of this
invocation succeeding; on Error the method logs and swallows. -/
def register_video (hash : String → String) (dbOk : Bool) (now : Nat)
    (db : DBState) (file_path : String) : DBState :=
  let file_hash := hash file_path
  if file_hash = "" then db
  else if dbOk then
    match db.videos.find? (fun r => r.file_path = file_path) with
    | some row =>
        if row.file_hash ≠ file_hash then
          let videos := db.videos.map fun r =>
            if r.file_path = file_path then
              { r with file_hash := file_hash, status := "pending", last_updated := now }
            else r
          { db with videos := videos }
        else db
    | none =>
        { db with videos := db.videos ++
            [{ file_path := file_path, file_hash := file_hash,
               status := "pending", last_updated := now, audio_path := none,
               transcript_path := none, idioms_path := none }] }
  else db

/-- The media extensions sync_folder accepts (src/db_manager.py line 110). -/
def valid_extensions : List String := [".mp4", ".mkv", ".avi", ".mov"]

/-- The extension filter of sync_folder line 114:
file.lower().endswith(valid_extensions). -/
def has_valid_extension (f : String) : Bool :=
  valid_extensions.any (fun ext => f.toLower.endsWith ext)

/-- DBManager.sync_folder (src/db_manager.py lines 107-116): the os.walk
enumeration is supplied as the list of discovered absolute paths in walk
order; every file whose lowercased name ends in a valid extension is
registered.  dbOk gives the MySQL outcome per registered path. -/
def sync_folder (hash : String → String) (dbOk : String → Bool) (now : Nat)
    (db : DBState) (files : List String) : DBState :=
  files.foldl
    (fun db f =>
      if has_valid_extension f then register_video hash (dbOk f) now db f
      else db)
    db

/-- Boolean match of the idioms_stats natural key. -/
def occ_key_match (word source_video : String) (start : Rat)
    (row : IdiomRow) : Bool :=
  row.word = word && row.source_video = source_video &&
    row.timestamp_start = start

/-- DBManager.add_idiom_record (src/db_manager.py lines 184-197):
INSERT ... ON DUPLICATE KEY UPDATE clip_path = VALUES(clip_path).  When
a row with the natural key (word, source_video, timestamp_start) already
exists only its clip_path column is rewritten (timestamp_end and
created_at keep their first-recorded values); otherwise one fresh row is
inserted.  fin is the timestamp_end value; errors are logged and
swallowed, dbOk models the call succeeding. -/
def add_idiom_record (dbOk : Bool) (now : Nat) (db : DBState)
    (word source_video : String) (start fin : Rat) (clip_path : String) :
    DBState :=
  if dbOk then
    if db.idioms_stats.any (occ_key_match word source_video start) then
      let rows := db.idioms_stats.map fun row =>
        if occ_key_match word source_video start row then
          { row with clip_path := clip_path }
        else row
      { db with idioms_stats := rows }
    else
      { db with idioms_stats := db.idioms_stats ++
          [{ word := word, source_video := source_video,
             timestamp_start := start, timestamp_end := fin,
             clip_path := clip_path, created_at := now }] }
  else db

/-- One entry of the idioms JSON consumed and enriched in place by
VideoProcessor.process_idioms: keys word, start, end, plus the clip_path
key the renderer adds on success (src/video_processor.py line 68). -/
structure IdiomEntry where
  word : String
  start : Rat
  «end» : Rat
  clip_path : Option String
deriving Repr, DecidableEq

/-- os.path.basename for the forward-slash paths the pipeline builds. -/
def basename (p : String) : String :=
  (p.splitOn "/").getLastD p

/-- The root part of os.path.splitext: drop the extension after the last
dot, provided some character before that dot is not itself a dot (Python
keeps names such as .bashrc whole). -/
def splitext_root (s : String) : String :=
  let cs := s.toList
  match cs.reverse.findIdx? (fun c => c = '.') with
  | none => s
  | some k =>
      let i := cs.length - 1 - k
      if (cs.take i).any (fun c => c ≠ '.') then String.mk (cs.take i) else s

/-- The filename character filter of process_idioms line 54.  The Python
str.isalnum test is Unicode-aware while Char.isAlphanum is its ASCII
restriction; no claim depends on which characters survive. -/
def sanitize_filename (s : String) : String :=
  String.mk (s.toList.filter (fun c => c.isAlphanum || c = '_' || c = '.' || c = '-'))

/-- The output clip path built by process_idioms lines 50-55; the Python
int() truncation agrees with the floor on the nonnegative padded start,
and os.path.abspath is the identity in this path-as-string model. -/
def clip_output_path (output_dir word episode_name : String) (start : Rat) :
    String :=
  output_dir ++ "/" ++
    sanitize_filename (word ++ "_" ++ episode_name ++ "_" ++
      toString start.floor ++ "s.mp4")

/-- The per-entry loop of VideoProcessor.process_idioms (lines 45-69).
renderOk i tells whether writing clip number i succeeds (subclipped and
write_videofile, lines 60-66); the first failing write raises, so the
entries after it are left untouched, and the except of line 74 logs and
falls through to return the clip paths collected so far. -/
def render_loop (renderOk : Nat → Bool) (duration : Rat)
    (padding_start padding_end : Rat) (output_dir episode_name : String) :
    Nat → List IdiomEntry → List IdiomEntry × List String
  | _, [] => ([], [])
  | i, idiom :: rest =>
      if renderOk i then
        let start := max 0 (idiom.start - padding_start)
        let _stop := min duration (idiom.«end» + padding_end)
        let output_path := clip_output_path output_dir idiom.word episode_name start
        let (rest2, clips) := render_loop renderOk duration padding_start
          padding_end output_dir episode_name (i + 1) rest
        ({ idiom with clip_path := some output_path } :: rest2,
         output_path :: clips)
      else (idiom :: rest, [])

/-- VideoProcessor.process_idioms (src/video_processor.py lines 27-77).
openOk models VideoFileClip(video_path) succeeding (line 40); when the
open raises, nothing is rendered and the entry list comes back unmutated
with no clip paths.  Returns the (in Python, in-place mutated) entry
list together with the clip path list. -/
def process_idioms (openOk : Bool) (renderOk : Nat → Bool) (duration : Rat)
    (output_dir : String) (padding_start padding_end : Rat)
    (video_path : String) (idioms : List IdiomEntry) :
    List IdiomEntry × List String :=
  if idioms.isEmpty then (idioms, [])
  else if openOk then
    render_loop renderOk duration padding_start padding_end output_dir
      (splitext_root (basename video_path)) 0 idioms
  else (idioms, [])

/-- One external-stage-processor invocation made by the orchestrator;
each constructor stands for the per-item block of collaborator calls of
one stage (the audio extraction, the STT transcription, the LLM batch
processing, the clip rendering). -/
inductive Invocation where
  | audio (path : String)
  | stt (audio_path : Option String)
  | llm (transcript_path : Option String)
  | video (path : String)
deriving Repr, DecidableEq

/-- The external collaborators and failure injection points of one
Pipeline.run_full_pipeline invocation.  Every field is an oracle for a
call the orchestrator makes outside the in-memory store model. -/
structure PipelineEnv where
  /-- AudioExtractor.extract: some audio path on success, none on failure
  (the extractor catches its own exceptions, src/audio_extractor.py). -/
  extract : String → Option String
  /-- STTEngine.transcribe applied to the stored audio_path column (none
  when the column is NULL); an error value models the exception the STT
  step catches (src/pipeline.py lines 51-57). -/
  transcribe : Option String → Except Unit Unit
  /-- The LLM step work outside the store for one item, applied to the
  stored transcript_path column: open, json.load, process_segments and
  save_idioms (src/pipeline.py lines 64-71); an error value models any
  exception in that try block. -/
  llm_step : Option String → Except Unit Unit
  /-- open plus json.load of the idioms file in the video step
  (src/pipeline.py lines 82-84); an error value models the raised
  exception, including the NULL idioms_path case. -/
  read_idioms : Option String → Except Unit (List IdiomEntry)
  /-- VideoFileClip opening successfully, per video path. -/
  openOk : String → Bool
  /-- write_videofile success for clip number i of a given video path. -/
  renderOk : String → Nat → Bool
  /-- video.duration per video path. -/
  duration : String → Rat
  /-- MySQL success of get_videos_by_status, per queried status. -/
  dbReadOk : String → Bool
  /-- MySQL success of update_video_status, keyed by new status and path. -/
  dbWriteOk : String → String → Bool
  /-- MySQL success of add_idiom_record, keyed by word and source path. -/
  dbOccOk : String → String → Bool
  /-- MySQL success of register_video, per file path. -/
  dbRegOk : String → Bool

/-- The shared shape of the four stage loops of src/pipeline.py: iterate
over the pre-fetched eligible list, threading the store through the
per-item store effect db_step while the per-item collaborator
invocations inv are appended to the log. -/
def stage_fold (db_step : DBState → VideoRecord → DBState)
    (inv : VideoRecord → List Invocation) (eligible : List VideoRecord)
    (db : DBState) : DBState × List Invocation :=
  eligible.foldl (fun acc v => (db_step acc.1 v, acc.2 ++ inv v)) (db, [])

/-- The store effect of one item of Pipeline._process_step_audio
(src/pipeline.py lines 40-44): run the extractor and, when it returns a
path, advance the item to audio_extracted with its audio artifact;
otherwise the extractor has logged its failure and nothing happens. -/
def audio_db_step (env : PipelineEnv) (now : Nat) (db : DBState)
    (video : VideoRecord) : DBState :=
  match env.extract video.file_path with
  | some audio_path =>
      update_video_status (env.dbWriteOk "audio_extracted" video.file_path) now
        db video.file_path "audio_extracted" [("audio_path", audio_path)]
  | none => db

/-- Pipeline._process_step_audio (src/pipeline.py lines 38-44). -/
def process_step_audio (env : PipelineEnv) (now : Nat) (db : DBState) :
    DBState × List Invocation :=
  stage_fold (audio_db_step env now) (fun v => [Invocation.audio v.file_path])
    (get_videos_by_status (env.dbReadOk "pending") db "pending") db

/-- The store effect of one item of Pipeline._process_step_stt (lines
48-57).  The transcript path is transcripts/<basename(audio_path)>.json;
when the audio_path column is NULL the step raises inside its try block
at os.path.basename(None) even if the transcribe oracle answered, so
nothing is written for that item. -/
def stt_db_step (env : PipelineEnv) (now : Nat) (db : DBState)
    (video : VideoRecord) : DBState :=
  match env.transcribe video.audio_path, video.audio_path with
  | .ok _, some audio_path =>
      update_video_status (env.dbWriteOk "stt_done" video.file_path) now db
        video.file_path "stt_done"
        [("transcript_path", "transcripts/" ++ basename audio_path ++ ".json")]
  | _, _ => db

/-- Pipeline._process_step_stt (src/pipeline.py lines 46-57). -/
def process_step_stt (env : PipelineEnv) (now : Nat) (db : DBState) :
    DBState × List Invocation :=
  stage_fold (stt_db_step env now) (fun v => [Invocation.stt v.audio_path])
    (get_videos_by_status (env.dbReadOk "audio_extracted") db "audio_extracted")
    db

/-- The store effect of one item of Pipeline._process_step_llm (lines
61-74); the whole try block outside the store is the llm_step oracle,
and the idioms path is filtered_idioms/<basename(path)>.json. -/
def llm_db_step (env : PipelineEnv) (now : Nat) (db : DBState)
    (video : VideoRecord) : DBState :=
  match env.llm_step video.transcript_path with
  | .ok _ =>
      update_video_status (env.dbWriteOk "llm_done" video.file_path) now db
        video.file_path "llm_done"
        [("idioms_path", "filtered_idioms/" ++ basename video.file_path ++ ".json")]
  | .error _ => db

/-- Pipeline._process_step_llm (src/pipeline.py lines 59-74). -/
def process_step_llm (env : PipelineEnv) (now : Nat) (db : DBState) :
    DBState × List Invocation :=
  stage_fold (llm_db_step env now) (fun v => [Invocation.llm v.transcript_path])
    (get_videos_by_status (env.dbReadOk "stt_done") db "stt_done") db

/-- The store effect of one item of Pipeline._process_step_video (lines
78-101): load the idioms JSON, run the clip renderer over it (the
renderer mutates the entry list in place and swallows its own
exceptions), record every entry that carries a clip_path via
add_idiom_record, then mark the item completed.  add_idiom_record and
update_video_status swallow MySQL errors, so only a json.load failure
skips the item. -/
def video_db_step (env : PipelineEnv) (now : Nat) (db : DBState)
    (video : VideoRecord) : DBState :=
  let path := video.file_path
  match env.read_idioms video.idioms_path with
  | .error _ => db
  | .ok idioms =>
      let updated :=
        (process_idioms (env.openOk path) (env.renderOk path)
          (env.duration path) "output_clips" (1/2) (1/2) path idioms).1
      let db := updated.foldl
        (fun db idiom =>
          match idiom.clip_path with
          | some cp => add_idiom_record (env.dbOccOk idiom.word path) now db
              idiom.word path idiom.start idiom.«end» cp
          | none => db)
        db
      update_video_status (env.dbWriteOk "completed" path) now db path
        "completed" []

/-- The collaborator invocation of one item of the video step: the clip
renderer runs exactly when the idioms JSON loads. -/
def video_inv (env : PipelineEnv) (video : VideoRecord) : List Invocation :=
  match env.read_idioms video.idioms_path with
  | .error _ => []
  | .ok _ => [Invocation.video video.file_path]

/-- Pipeline._process_step_video (src/pipeline.py lines 76-101). -/
def process_step_video (env : PipelineEnv) (now : Nat) (db : DBState) :
    DBState × List Invocation :=
  stage_fold (video_db_step env now) (video_inv env)
    (get_videos_by_status (env.dbReadOk "llm_done") db "llm_done") db

/-- Pipeline.run_full_pipeline (src/pipeline.py lines 22-36): registry
sync over the watched directory, then the four stage loops in fixed
order.  files is the os.walk enumeration of the raw video directory and
hash the file-content digest oracle.  Returns the final store together
with the concatenated external-processor invocation log. -/
def run_full_pipeline (env : PipelineEnv) (hash : String → String)
    (now : Nat) (db : DBState) (files : List String) :
    DBState × List Invocation :=
  let db0 := sync_folder hash env.dbRegOk now db files
  let s1 := process_step_audio env now db0
  let s2 := process_step_stt env now s1.1
  let s3 := process_step_llm env now s2.1
  let s4 := process_step_video env now s3.1
  (s4.1, s1.2 ++ s2.2 ++ s3.2 ++ s4.2)

/-! ### Facts about the SET clause machinery of update_video_status -/

lemma set_field_status (r : VideoRecord) (k v : String) :
    (set_field r k v).status = r.status := by
  unfold set_field; split_ifs <;> rfl

lemma set_field_last_updated (r : VideoRecord) (k v : String) :
    (set_field r k v).last_updated = r.last_updated := by
  unfold set_field; split_ifs <;> rfl

lemma set_field_file_path (r : VideoRecord) (k v : String) :
    (set_field r k v).file_path = r.file_path := by
  unfold set_field; split_ifs <;> rfl

lemma set_field_file_hash (r : VideoRecord) (k v : String) :
    (set_field r k v).file_hash = r.file_hash := by
  unfold set_field; split_ifs <;> rfl

lemma clause_foldl_status (kwargs : List (String × String)) (r0 : VideoRecord) :
    (kwargs.foldl
      (fun r kv => if kv.1 ∈ allowed_fields then set_field r kv.1 kv.2 else r)
      r0).status = r0.status := by
  induction kwargs generalizing r0 with
  | nil => rfl
  | cons kv l ih =>
      rw [List.foldl_cons, ih]
      split_ifs
      · exact set_field_status r0 kv.1 kv.2
      · rfl

lemma clause_foldl_last_updated (kwargs : List (String × String))
    (r0 : VideoRecord) :
    (kwargs.foldl
      (fun r kv => if kv.1 ∈ allowed_fields then set_field r kv.1 kv.2 else r)
      r0).last_updated = r0.last_updated := by
  induction kwargs generalizing r0 with
  | nil => rfl
  | cons kv l ih =>
      rw [List.foldl_cons, ih]
      split_ifs
      · exact set_field_last_updated r0 kv.1 kv.2
      · rfl

lemma clause_foldl_file_path (kwargs : List (String × String))
    (r0 : VideoRecord) :
    (kwargs.foldl
      (fun r kv => if kv.1 ∈ allowed_fields then set_field r kv.1 kv.2 else r)
      r0).file_path = r0.file_path := by
  induction kwargs generalizing r0 with
  | nil => rfl
  | cons kv l ih =>
      rw [List.foldl_cons, ih]
      split_ifs
      · exact set_field_file_path r0 kv.1 kv.2
      · rfl

lemma clause_foldl_file_hash (kwargs : List (String × String))
    (r0 : VideoRecord) :
    (kwargs.foldl
      (fun r kv => if kv.1 ∈ allowed_fields then set_field r kv.1 kv.2 else r)
      r0).file_hash = r0.file_hash := by
  induction kwargs generalizing r0 with
  | nil => rfl
  | cons kv l ih =>
      rw [List.foldl_cons, ih]
      split_ifs
      · exact set_field_file_hash r0 kv.1 kv.2
      · rfl

lemma apply_set_clauses_status (r : VideoRecord) (s : String) (now : Nat)
    (kwargs : List (String × String)) :
    (apply_set_clauses r s now kwargs).status = s := by
  unfold apply_set_clauses; rw [clause_foldl_status]

lemma apply_set_clauses_last_updated (r : VideoRecord) (s : String) (now : Nat)
    (kwargs : List (String × String)) :
    (apply_set_clauses r s now kwargs).last_updated = now := by
  unfold apply_set_clauses; rw [clause_foldl_last_updated]

lemma apply_set_clauses_file_path (r : VideoRecord) (s : String) (now : Nat)
    (kwargs : List (String × String)) :
    (apply_set_clauses r s now kwargs).file_path = r.file_path := by
  unfold apply_set_clauses; rw [clause_foldl_file_path]

lemma apply_set_clauses_file_hash (r : VideoRecord) (s : String) (now : Nat)
    (kwargs : List (String × String)) :
    (apply_set_clauses r s now kwargs).file_hash = r.file_hash := by
  unfold apply_set_clauses; rw [clause_foldl_file_hash]

lemma get_field_mk_status (r : VideoRecord) (s : String) (n : Nat)
    (k : String) :
    get_field { r with status := s, last_updated := n } k = get_field r k := by
  unfold get_field; split_ifs <;> rfl

lemma get_set_field_same (r : VideoRecord) (k v : String)
    (hk : k ∈ allowed_fields) : get_field (set_field r k v) k = some v := by
  simp only [allowed_fields, List.mem_cons, List.not_mem_nil, or_false] at hk
  rcases hk with rfl | rfl | rfl <;> simp [get_field, set_field]

lemma get_set_field_other (r : VideoRecord) (k v k2 : String) (h : k2 ≠ k) :
    get_field (set_field r k v) k2 = get_field r k2 := by
  unfold get_field set_field
  split_ifs <;> simp_all

lemma clause_foldl_get_not_mem (kwargs : List (String × String))
    (r0 : VideoRecord) (k : String) (hk : k ∉ kwargs.map Prod.fst) :
    get_field
      (kwargs.foldl
        (fun r kv => if kv.1 ∈ allowed_fields then set_field r kv.1 kv.2 else r)
        r0) k = get_field r0 k := by
  induction kwargs generalizing r0 with
  | nil => rfl
  | cons kv l ih =>
      simp only [List.map_cons, List.mem_cons, not_or] at hk
      rw [List.foldl_cons, ih _ hk.2]
      split_ifs
      · exact get_set_field_other r0 kv.1 kv.2 k hk.1
      · rfl

lemma clause_foldl_get_mem (kwargs : List (String × String))
    (hnd : (kwargs.map Prod.fst).Nodup)
    (hall : ∀ kv ∈ kwargs, kv.1 ∈ allowed_fields) :
    ∀ r0 : VideoRecord, ∀ kv ∈ kwargs,
      get_field
        (kwargs.foldl
          (fun r kv => if kv.1 ∈ allowed_fields then set_field r kv.1 kv.2 else r)
          r0) kv.1 = some kv.2 := by
  induction kwargs with
  | nil => intro r0 kv h; cases h
  | cons kv0 l ih =>
      intro r0 kv hkv
      simp only [List.map_cons, List.nodup_cons] at hnd
      rw [List.foldl_cons]
      rcases List.mem_cons.mp hkv with rfl | htail
      · rw [clause_foldl_get_not_mem l _ _ hnd.1]
        have hmem : kv.1 ∈ allowed_fields := hall kv (List.mem_cons_self kv l)
        rw [if_pos hmem]
        exact get_set_field_same r0 kv.1 kv.2 hmem
      · exact ih hnd.2 (fun x hx => hall x (List.mem_cons_of_mem kv0 hx)) _ kv
          htail

lemma clause_foldl_filter (kwargs : List (String × String)) (r0 : VideoRecord) :
    kwargs.foldl
        (fun r kv => if kv.1 ∈ allowed_fields then set_field r kv.1 kv.2 else r)
        r0 =
      (kwargs.filter fun kv => decide (kv.1 ∈ allowed_fields)).foldl
        (fun r kv => if kv.1 ∈ allowed_fields then set_field r kv.1 kv.2 else r)
        r0 := by
  induction kwargs generalizing r0 with
  | nil => rfl
  | cons kv l ih =>
      by_cases h : kv.1 ∈ allowed_fields
      · rw [List.foldl_cons, if_pos h, List.filter_cons_of_pos (by simpa),
          List.foldl_cons, if_pos h, ih]
      · rw [List.foldl_cons, if_neg h, List.filter_cons_of_neg (by simpa), ih]

lemma apply_set_clauses_filter (r : VideoRecord) (s : String) (now : Nat)
    (kwargs : List (String × String)) :
    apply_set_clauses r s now kwargs =
      apply_set_clauses r s now
        (kwargs.filter fun kv => decide (kv.1 ∈ allowed_fields)) := by
  unfold apply_set_clauses; exact clause_foldl_filter kwargs _

/-- C10: keyword fields outside the allowed artifact set
(audio_path, transcript_path, idioms_path) passed to update_video_status
are silently ignored rather than rejected — the update is the same as
with those fields filtered away, and it still writes the status and the
last_updated timestamp. -/
theorem c10_extra_kwargs_ignored :
    (∀ (dbOk : Bool) (now : Nat) (db : DBState) (path status : String)
        (kwargs : List (String × String)),
        update_video_status dbOk now db path status kwargs =
          update_video_status dbOk now db path status
            (kwargs.filter fun kv => decide (kv.1 ∈ allowed_fields))) ∧
    (∀ (r : VideoRecord) (status : String) (now : Nat)
        (kwargs : List (String × String)),
        (apply_set_clauses r status now kwargs).status = status ∧
        (apply_set_clauses r status now kwargs).last_updated = now) := by
  constructor
  · intro dbOk now db path status kwargs
    unfold update_video_status
    split_ifs
    · dsimp only
      simp only [DBState.mk.injEq, and_true]
      refine List.map_congr_left fun r _ => ?_
      by_cases hp : r.file_path = path
      · rw [if_pos hp, if_pos hp, apply_set_clauses_filter]
      · rw [if_neg hp, if_neg hp]
    · rfl
  · intro r status now kwargs
    exact ⟨apply_set_clauses_status r status now kwargs,
      apply_set_clauses_last_updated r status now kwargs⟩

/-- C6: update_video_status writes, in one committed update, the new
status, the last_updated timestamp and exactly the artifact fields
provided in the call, and leaves every artifact field not provided (and
every other row) untouched. -/
theorem c6_partial_update_frame (db : DBState) (now : Nat)
    (path status : String) (kwargs : List (String × String)) (r : VideoRecord)
    (hnd : (kwargs.map Prod.fst).Nodup)
    (hall : ∀ kv ∈ kwargs, kv.1 ∈ allowed_fields) :
    (update_video_status true now db path status kwargs).videos =
      db.videos.map (fun x =>
        if x.file_path = path then apply_set_clauses x status now kwargs
        else x) ∧
    (apply_set_clauses r status now kwargs).status = status ∧
    (apply_set_clauses r status now kwargs).last_updated = now ∧
    (∀ kv ∈ kwargs,
      get_field (apply_set_clauses r status now kwargs) kv.1 = some kv.2) ∧
    (∀ k ∈ allowed_fields, k ∉ kwargs.map Prod.fst →
      get_field (apply_set_clauses r status now kwargs) k = get_field r k) := by
  refine ⟨rfl, apply_set_clauses_status r status now kwargs,
    apply_set_clauses_last_updated r status now kwargs, ?_, ?_⟩
  · intro kv hkv
    exact clause_foldl_get_mem kwargs hnd hall _ kv hkv
  · intro k _ hk
    unfold apply_set_clauses
    rw [clause_foldl_get_not_mem kwargs _ k hk, get_field_mk_status]

/-- A concrete record used to witness the update_video_status claims. -/
def sample_record : VideoRecord :=
  { file_path := "data/raw_video/ep1.mp4", file_hash := "h1",
    status := "pending", last_updated := 0, audio_path := none,
    transcript_path := some "transcripts/ep1.wav.json", idioms_path := none }

/-- Witness for C6 at a concrete call: status, timestamp and the
provided audio_path field are written, the transcript_path field is
untouched. -/
theorem c6_partial_update_frame_witness :
    (apply_set_clauses sample_record "audio_extracted" 3
        [("audio_path", "audio_cache/ep1.wav")]).status = "audio_extracted" ∧
    (apply_set_clauses sample_record "audio_extracted" 3
        [("audio_path", "audio_cache/ep1.wav")]).last_updated = 3 ∧
    get_field (apply_set_clauses sample_record "audio_extracted" 3
        [("audio_path", "audio_cache/ep1.wav")]) "audio_path" =
      some "audio_cache/ep1.wav" ∧
    get_field (apply_set_clauses sample_record "audio_extracted" 3
        [("audio_path", "audio_cache/ep1.wav")]) "transcript_path" =
      some "transcripts/ep1.wav.json" := by
  have h := c6_partial_update_frame ⟨[sample_record], []⟩ 3
    "data/raw_video/ep1.mp4" "audio_extracted"
    [("audio_path", "audio_cache/ep1.wav")] sample_record
    (by decide) (by decide)
  refine ⟨h.2.1, h.2.2.1,
    h.2.2.2.1 ("audio_path", "audio_cache/ep1.wav") (by simp), ?_⟩
  rw [h.2.2.2.2 "transcript_path" (by decide) (by decide)]
  rfl

/-! ### Occurrence upsert (add_idiom_record) -/

lemma occ_key_match_self (word source : String) (s fin : Rat) (cp : String)
    (t : Nat) :
    occ_key_match word source s ⟨word, source, s, fin, cp, t⟩ = true := by
  simp [occ_key_match]

/-- C5: add_idiom_record records at most one row per
(word, source_video, timestamp_start): a first call with an unseen key
appends one fresh row, and a repeated call with the same key rewrites
only the clip_path column of that row (timestamp_end and created_at keep
their first-recorded values), leaving exactly one row for the key. -/
theorem c5_upsert_occurrence (db : DBState) (word source : String)
    (s e1 e2 : Rat) (x y : String) (t1 t2 : Nat)
    (h : ∀ row ∈ db.idioms_stats, occ_key_match word source s row = false) :
    (add_idiom_record true t1 db word source s e1 x).idioms_stats =
      db.idioms_stats ++ [⟨word, source, s, e1, x, t1⟩] ∧
    (add_idiom_record true t2 (add_idiom_record true t1 db word source s e1 x)
        word source s e2 y).idioms_stats =
      db.idioms_stats ++ [⟨word, source, s, e1, y, t1⟩] ∧
    ((add_idiom_record true t2 (add_idiom_record true t1 db word source s e1 x)
        word source s e2 y).idioms_stats.filter
          (occ_key_match word source s)).length = 1 := by
  have hany : db.idioms_stats.any (occ_key_match word source s) = false := by
    rw [List.any_eq_false]
    intro row hr
    rw [h row hr]
    exact Bool.false_ne_true
  have h1s : add_idiom_record true t1 db word source s e1 x =
      { db with idioms_stats :=
          db.idioms_stats ++ [⟨word, source, s, e1, x, t1⟩] } := by
    unfold add_idiom_record
    rw [if_pos rfl, if_neg (by rw [hany]; exact Bool.false_ne_true)]
  have h1 : (add_idiom_record true t1 db word source s e1 x).idioms_stats =
      db.idioms_stats ++ [⟨word, source, s, e1, x, t1⟩] := by
    rw [h1s]
  have hany2 : ((db.idioms_stats ++
      [(⟨word, source, s, e1, x, t1⟩ : IdiomRow)]).any
        (occ_key_match word source s)) = true := by
    rw [List.any_append]
    simp [occ_key_match_self]
  have hmap1 : db.idioms_stats.map (fun row =>
      if occ_key_match word source s row then { row with clip_path := y }
      else row) = db.idioms_stats := by
    conv_rhs => rw [← List.map_id db.idioms_stats]
    refine List.map_congr_left ?_
    intro row hr
    simp [h row hr]
  have h2 : (add_idiom_record true t2
      (add_idiom_record true t1 db word source s e1 x)
        word source s e2 y).idioms_stats =
      db.idioms_stats ++ [⟨word, source, s, e1, y, t1⟩] := by
    rw [h1s]
    unfold add_idiom_record
    rw [if_pos rfl]
    dsimp only
    rw [if_pos hany2, List.map_append, hmap1]
    simp [occ_key_match_self]
  refine ⟨h1, h2, ?_⟩
  rw [h2, List.filter_append]
  have hfilter1 : db.idioms_stats.filter (occ_key_match word source s) = [] := by
    rw [List.filter_eq_nil_iff]
    intro row hr
    rw [h row hr]
    exact Bool.false_ne_true
  rw [hfilter1]
  simp [occ_key_match_self]

/-- Witness for C5 at the concrete inputs of the spec: recording the
occurrence with locatorX then locatorY leaves exactly one row whose clip
locator is locatorY and whose end time and creation instant come from
the first call. -/
theorem c5_upsert_occurrence_witness :
    (add_idiom_record true 9
      (add_idiom_record true 5 ⟨[], []⟩ "落荒而逃" "ep1.mp4" 12 14 "locatorX")
      "落荒而逃" "ep1.mp4" 12 14 "locatorY").idioms_stats =
      [⟨"落荒而逃", "ep1.mp4", 12, 14, "locatorY", 5⟩] := by
  have h := c5_upsert_occurrence ⟨[], []⟩ "落荒而逃" "ep1.mp4" 12 14 14
    "locatorX" "locatorY" 5 9 (by intro row hr; cases hr)
  simpa using h.2.1

/-! ### Registry sync (register_video and sync_folder) -/

lemma find?_some_path {db : List VideoRecord} {p : String} {row : VideoRecord}
    (h : db.find? (fun r => r.file_path = p) = some row) : row.file_path = p := by
  have := List.find?_some h
  simpa using this

/-- C3: a registry sync of an already-registered item whose recomputed
fingerprint differs from the stored one updates the fingerprint, resets
the status to pending regardless of the prior status, refreshes
last_updated, and leaves the artifact columns and all other rows
untouched. -/
theorem c3_fingerprint_change_resets (hash : String → String) (now : Nat)
    (db : DBState) (p : String) (row : VideoRecord)
    (hfind : db.videos.find? (fun r => r.file_path = p) = some row)
    (hne : row.file_hash ≠ hash p) (hnz : hash p ≠ "") :
    (register_video hash true now db p).videos =
      db.videos.map (fun r =>
        if r.file_path = p then
          { r with file_hash := hash p, status := "pending",
                   last_updated := now }
        else r) ∧
    (register_video hash true now db p).idioms_stats = db.idioms_stats ∧
    ∀ r : VideoRecord,
      ({ r with file_hash := hash p, status := "pending",
                last_updated := now } : VideoRecord).audio_path = r.audio_path ∧
      ({ r with file_hash := hash p, status := "pending",
                last_updated := now } : VideoRecord).transcript_path =
        r.transcript_path ∧
      ({ r with file_hash := hash p, status := "pending",
                last_updated := now } : VideoRecord).idioms_path =
        r.idioms_path := by
  have hreg : register_video hash true now db p =
      { db with videos := db.videos.map (fun r =>
          if r.file_path = p then
            { r with file_hash := hash p, status := "pending",
                     last_updated := now }
          else r) } := by
    unfold register_video
    rw [if_neg hnz, if_pos rfl, hfind]
    dsimp only
    rw [if_pos hne]
  exact ⟨by rw [hreg], by rw [hreg], fun r => ⟨rfl, rfl, rfl⟩⟩

/-- Witness for C3: a completed item whose content hash changed is reset
to pending with the new fingerprint, artifacts kept. -/
theorem c3_fingerprint_change_resets_witness :
    (register_video (fun _ => "h2") true 9
        ⟨[⟨"ep1.mp4", "h1", "completed", 4, some "a.wav", some "t.json",
           some "i.json"⟩], []⟩ "ep1.mp4").videos =
      [⟨"ep1.mp4", "h2", "pending", 9, some "a.wav", some "t.json",
        some "i.json"⟩] := by
  have h := c3_fingerprint_change_resets (fun _ => "h2") 9
    ⟨[⟨"ep1.mp4", "h1", "completed", 4, some "a.wav", some "t.json",
       some "i.json"⟩], []⟩ "ep1.mp4"
    ⟨"ep1.mp4", "h1", "completed", 4, some "a.wav", some "t.json",
     some "i.json"⟩ (by rfl) (by decide) (by decide)
  rw [h.1]
  rfl

/-- All ways register_video leaves the store unchanged for one path: an
unreadable file (empty hash), a failed MySQL call, or an
already-registered row whose stored fingerprint matches the recomputed
one. -/
def register_noop_at (hash : String → String) (regOk : String → Bool)
    (db : DBState) (f : String) : Prop :=
  hash f = "" ∨ regOk f = false ∨
    ∃ row, db.videos.find? (fun r => r.file_path = f) = some row ∧
      row.file_hash = hash f

lemma register_video_unchanged (hash : String → String) (dbOk : Bool)
    (now : Nat) (db : DBState) (p : String) (row : VideoRecord)
    (hfind : db.videos.find? (fun r => r.file_path = p) = some row)
    (hh : row.file_hash = hash p) :
    register_video hash dbOk now db p = db := by
  unfold register_video
  dsimp only
  by_cases h1 : hash p = ""
  · rw [if_pos h1]
  · rw [if_neg h1]
    by_cases h2 : dbOk = true
    · rw [if_pos h2, hfind]
      dsimp only
      rw [if_neg (by simpa using hh)]
    · rw [if_neg h2]

lemma register_video_noop_of (hash : String → String) (regOk : String → Bool)
    (now : Nat) (db : DBState) (f : String)
    (h : register_noop_at hash regOk db f) :
    register_video hash (regOk f) now db f = db := by
  rcases h with h | h | ⟨row, hfind, hh⟩
  · unfold register_video
    dsimp only
    rw [if_pos h]
  · unfold register_video
    dsimp only
    rw [h]
    by_cases h1 : hash f = ""
    · rw [if_pos h1]
    · rw [if_neg h1, if_neg (by simp)]
  · exact register_video_unchanged hash (regOk f) now db f row hfind hh

lemma register_video_establishes (hash : String → String)
    (regOk : String → Bool) (now : Nat) (db : DBState) (f : String) :
    register_noop_at hash regOk (register_video hash (regOk f) now db f) f := by
  unfold register_noop_at register_video
  dsimp only
  by_cases h1 : hash f = ""
  · exact Or.inl h1
  rw [if_neg h1]
  by_cases h2 : regOk f = true
  · rw [if_pos h2]
    refine Or.inr (Or.inr ?_)
    rcases hfind : db.videos.find? (fun r => r.file_path = f) with _ | row
    · rw [hfind]
      dsimp only
      refine ⟨⟨f, hash f, "pending", now, none, none, none⟩, ?_, rfl⟩
      rw [List.find?_append, hfind]
      simp
    · rw [hfind]
      dsimp only
      by_cases hch : row.file_hash ≠ hash f
      · rw [if_pos hch]
        dsimp only
        refine ⟨⟨row.file_path, hash f, "pending", now, row.audio_path,
          row.transcript_path, row.idioms_path⟩, ?_, rfl⟩
        rw [List.find?_map]
        have hcomm : ((fun r : VideoRecord => decide (r.file_path = f)) ∘
            fun r => if r.file_path = f then
              { r with file_hash := hash f, status := "pending",
                       last_updated := now }
            else r) = fun r : VideoRecord => decide (r.file_path = f) := by
          funext r
          by_cases hp : r.file_path = f
          · simp [hp]
          · simp [hp]
        rw [hcomm, hfind]
        have hrow : row.file_path = f := find?_some_path hfind
        simp [hrow]
      · rw [if_neg hch]
        push_neg at hch
        exact ⟨row, hfind, hch⟩
  · rw [if_neg h2]
    exact Or.inr (Or.inl (by simpa using h2))

lemma register_video_preserves (hash : String → String)
    (regOk : String → Bool) (dbOk2 : Bool) (now : Nat) (db : DBState)
    (f g : String) (h : register_noop_at hash regOk db f) :
    register_noop_at hash regOk (register_video hash dbOk2 now db g) f := by
  rcases h with h | h | ⟨row, hfind, hh⟩
  · exact Or.inl h
  · exact Or.inr (Or.inl h)
  refine Or.inr (Or.inr ?_)
  unfold register_video
  dsimp only
  by_cases h1 : hash g = ""
  · rw [if_pos h1]; exact ⟨row, hfind, hh⟩
  rw [if_neg h1]
  by_cases h2 : dbOk2 = true
  · rw [if_pos h2]
    rcases hfindg : db.videos.find? (fun r => r.file_path = g) with _ | rowg
    · rw [hfindg]
      dsimp only
      refine ⟨row, ?_, hh⟩
      rw [List.find?_append, hfind]
      rfl
    · rw [hfindg]
      dsimp only
      by_cases hch : rowg.file_hash ≠ hash g
      · rw [if_pos hch]
        dsimp only
        rw [List.find?_map]
        have hcomm : ((fun r : VideoRecord => decide (r.file_path = f)) ∘
            fun r => if r.file_path = g then
              { r with file_hash := hash g, status := "pending",
                       last_updated := now }
            else r) = fun r : VideoRecord => decide (r.file_path = f) := by
          funext r
          by_cases hp : r.file_path = g
          · simp [hp]
          · simp [hp]
        rw [hcomm, hfind]
        have hrowf : row.file_path = f := find?_some_path hfind
        by_cases hfg : row.file_path = g
        · exfalso
          have hfg2 : f = g := by rw [← hrowf, hfg]
          rw [← hfg2] at hfindg hch
          rw [hfind] at hfindg
          injection hfindg with he
          rw [he] at hh
          exact hch hh
        · refine ⟨row, ?_, hh⟩
          simp [hfg]
      · rw [if_neg hch]
        exact ⟨row, hfind, hh⟩
  · rw [if_neg h2]
    exact ⟨row, hfind, hh⟩

lemma sync_folder_cons (hash : String → String) (regOk : String → Bool)
    (now : Nat) (db : DBState) (g : String) (gs : List String) :
    sync_folder hash regOk now db (g :: gs) =
      sync_folder hash regOk now
        (if has_valid_extension g then register_video hash (regOk g) now db g
         else db) gs := by
  unfold sync_folder
  rw [List.foldl_cons]

lemma sync_folder_preserves (hash : String → String) (regOk : String → Bool)
    (now : Nat) (f : String) :
    ∀ (files : List String) (db : DBState),
      register_noop_at hash regOk db f →
      register_noop_at hash regOk (sync_folder hash regOk now db files) f := by
  intro files
  induction files with
  | nil => intro db h; exact h
  | cons g gs ih =>
      intro db h
      rw [sync_folder_cons]
      apply ih
      by_cases hv : has_valid_extension g = true
      · rw [if_pos hv]
        exact register_video_preserves hash regOk (regOk g) now db f g h
      · rw [if_neg hv]
        exact h

lemma sync_folder_establishes (hash : String → String) (regOk : String → Bool)
    (now : Nat) :
    ∀ (files : List String) (db : DBState) (f : String), f ∈ files →
      has_valid_extension f = true →
      register_noop_at hash regOk (sync_folder hash regOk now db files) f := by
  intro files
  induction files with
  | nil => intro db f hf _; cases hf
  | cons g gs ih =>
      intro db f hf hv
      rw [sync_folder_cons]
      rcases List.mem_cons.mp hf with rfl | htail
      · rw [if_pos hv]
        exact sync_folder_preserves hash regOk now f gs _
          (register_video_establishes hash regOk now db f)
      · exact ih _ f htail hv

lemma sync_folder_noop (hash : String → String) (regOk : String → Bool)
    (now : Nat) :
    ∀ (files : List String) (db : DBState),
      (∀ f ∈ files, has_valid_extension f = true →
        register_noop_at hash regOk db f) →
      sync_folder hash regOk now db files = db := by
  intro files
  induction files with
  | nil => intro db _; rfl
  | cons g gs ih =>
      intro db h
      rw [sync_folder_cons]
      by_cases hv : has_valid_extension g = true
      · rw [if_pos hv, register_video_noop_of hash regOk now db g
          (h g (List.mem_cons_self g gs) hv)]
        exact ih db (fun f hf => h f (List.mem_cons_of_mem g hf))
      · rw [if_neg hv]
        exact ih db (fun f hf => h f (List.mem_cons_of_mem g hf))

/-- C4: a registry sync of an already-registered item whose recomputed
fingerprint equals the stored one performs no mutation of the store at
all (not even a timestamp touch), and consequently running sync twice
over the same unchanged file tree leaves every record unchanged on the
second run, whatever clock values the two runs see. -/
theorem c4_sync_unchanged_no_mutation :
    (∀ (hash : String → String) (dbOk : Bool) (now : Nat) (db : DBState)
        (p : String) (row : VideoRecord),
        db.videos.find? (fun r => r.file_path = p) = some row →
        row.file_hash = hash p →
        register_video hash dbOk now db p = db) ∧
    (∀ (hash : String → String) (regOk : String → Bool) (now1 now2 : Nat)
        (db : DBState) (files : List String),
        sync_folder hash regOk now2 (sync_folder hash regOk now1 db files)
          files = sync_folder hash regOk now1 db files) := by
  constructor
  · exact fun hash dbOk now db p row hf hh =>
      register_video_unchanged hash dbOk now db p row hf hh
  · intro hash regOk now1 now2 db files
    exact sync_folder_noop hash regOk now2 files _
      (fun f hf hv => sync_folder_establishes hash regOk now1 files db f hf hv)

/-- Witness for C4: re-registering the sample record with its stored
hash changes nothing. -/
theorem c4_sync_unchanged_no_mutation_witness :
    register_video (fun _ => "h1") true 7 ⟨[sample_record], []⟩
      "data/raw_video/ep1.mp4" = ⟨[sample_record], []⟩ :=
  c4_sync_unchanged_no_mutation.1 (fun _ => "h1") true 7
    ⟨[sample_record], []⟩ "data/raw_video/ep1.mp4" sample_record
    (by decide) (by decide)

/-! ### Stage loop structure -/

lemma add_idiom_record_videos (dbOk : Bool) (now : Nat) (db : DBState)
    (word source_video : String) (start fin : Rat) (clip_path : String) :
    (add_idiom_record dbOk now db word source_video start fin
      clip_path).videos = db.videos := by
  unfold add_idiom_record
  split_ifs <;> rfl

lemma occ_fold_videos (env : PipelineEnv) (now : Nat) (path : String) :
    ∀ (entries : List IdiomEntry) (db : DBState),
      (entries.foldl (fun db idiom =>
        match idiom.clip_path with
        | some cp => add_idiom_record (env.dbOccOk idiom.word path) now db
            idiom.word path idiom.start idiom.«end» cp
        | none => db) db).videos = db.videos := by
  intro entries
  induction entries with
  | nil => intro db; rfl
  | cons e es ih =>
      intro db
      rw [List.foldl_cons, ih]
      cases hcp : e.clip_path with
      | none => rfl
      | some cp =>
          exact add_idiom_record_videos _ now db e.word path e.start e.«end» cp

lemma stage_fold_fst (f : DBState → VideoRecord → DBState)
    (inv : VideoRecord → List Invocation) :
    ∀ (L : List VideoRecord) (db : DBState) (log : List Invocation),
      (L.foldl (fun acc v => (f acc.1 v, acc.2 ++ inv v)) (db, log)).1 =
        L.foldl f db := by
  intro L
  induction L with
  | nil => intro db log; rfl
  | cons v vs ih =>
      intro db log
      rw [List.foldl_cons, List.foldl_cons]
      exact ih (f db v) (log ++ inv v)

lemma stage_fold_log (f : DBState → VideoRecord → DBState)
    (inv : VideoRecord → List Invocation) :
    ∀ (L : List VideoRecord) (db : DBState) (log : List Invocation),
      (L.foldl (fun acc v => (f acc.1 v, acc.2 ++ inv v)) (db, log)).2 =
        log ++ (L.map inv).flatten := by
  intro L
  induction L with
  | nil => intro db log; simp
  | cons v vs ih =>
      intro db log
      rw [List.foldl_cons]
      rw [ih (f db v) (log ++ inv v)]
      simp

lemma join_singletons {α β : Type} (g : α → β) :
    ∀ L : List α, (L.map (fun v => [g v])).flatten = L.map g := by
  intro L
  induction L with
  | nil => rfl
  | cons a l ih => simp [ih]

/-! ### C1: partial clip rendering still marks the item completed -/

def c1_entry0 : IdiomEntry := ⟨"w1", 10, 12, none⟩

def c1_entry1 : IdiomEntry := ⟨"w2", 30, 32, none⟩

def c1_video : VideoRecord :=
  ⟨"data/raw_video/ep1.mp4", "h1", "llm_done", 0, some "audio_cache/ep1.wav",
   some "transcripts/ep1.wav.json", some "filtered_idioms/ep1.mp4.json"⟩

/-- An environment in which the first clip of ep1 renders and the second
clip raises inside write_videofile, with a healthy MySQL connection. -/
def c1_env : PipelineEnv where
  extract := fun _ => none
  transcribe := fun _ => .error ()
  llm_step := fun _ => .error ()
  read_idioms := fun _ => .ok [c1_entry0, c1_entry1]
  openOk := fun _ => true
  renderOk := fun _ i => i == 0
  duration := fun _ => 60
  dbReadOk := fun _ => true
  dbWriteOk := fun _ _ => true
  dbOccOk := fun _ _ => true
  dbRegOk := fun _ => true

def c1_db : DBState := ⟨[c1_video], []⟩

/-- Counterexample to C1: the item at llm_done has two recognized
occurrences, the renderer produces a clip locator for the first and
fails on the second (a partial render), yet the clip-rendering stage
still sets the item status to completed — the renderer swallows its own
exception and _process_step_video line 99 runs unconditionally after
it. -/
theorem c1_counterexample :
    ((process_idioms true (c1_env.renderOk "data/raw_video/ep1.mp4") 60
        "output_clips" (1/2) (1/2) "data/raw_video/ep1.mp4"
        [c1_entry0, c1_entry1]).1.any fun e => e.clip_path.isSome) = true ∧
    ((process_idioms true (c1_env.renderOk "data/raw_video/ep1.mp4") 60
        "output_clips" (1/2) (1/2) "data/raw_video/ep1.mp4"
        [c1_entry0, c1_entry1]).1.any fun e => e.clip_path.isNone) = true ∧
    (process_step_video c1_env 1 c1_db).1.videos.map VideoRecord.status =
      ["completed"] := by
  decide

/-- C1 amended: in the clip-rendering stage, an item at llm_done whose
occurrences render partially (some get a clip locator, at least one
fails) IS still marked completed by that stage invocation, provided the
idioms JSON loads and the status write commits: render failures are
caught inside process_idioms and do not block the completed update. -/
theorem c1_amended_partial_render_completes (env : PipelineEnv) (now : Nat)
    (db : DBState) (video : VideoRecord) (idioms : List IdiomEntry)
    (hread : env.read_idioms video.idioms_path = .ok idioms)
    (hwrite : env.dbWriteOk "completed" video.file_path = true)
    (hsome : ((process_idioms (env.openOk video.file_path)
        (env.renderOk video.file_path) (env.duration video.file_path)
        "output_clips" (1/2) (1/2) video.file_path idioms).1.any
          fun e => e.clip_path.isSome) = true)
    (hnone : ((process_idioms (env.openOk video.file_path)
        (env.renderOk video.file_path) (env.duration video.file_path)
        "output_clips" (1/2) (1/2) video.file_path idioms).1.any
          fun e => e.clip_path.isNone) = true) :
    (video_db_step env now db video).videos =
      db.videos.map (fun r =>
        if r.file_path = video.file_path then
          apply_set_clauses r "completed" now []
        else r) ∧
    ∀ r : VideoRecord, (apply_set_clauses r "completed" now []).status =
      "completed" := by
  constructor
  · unfold video_db_step
    rw [hread]
    dsimp only
    rw [hwrite]
    unfold update_video_status
    rw [if_pos rfl]
    dsimp only
    rw [occ_fold_videos]
  · exact fun r => apply_set_clauses_status r "completed" now []

/-- Witness for the amended C1 at the concrete partial-render inputs. -/
theorem c1_amended_partial_render_completes_witness :
    (video_db_step c1_env 1 c1_db c1_video).videos =
      c1_db.videos.map (fun r =>
        if r.file_path = c1_video.file_path then
          apply_set_clauses r "completed" 1 []
        else r) :=
  (c1_amended_partial_render_completes c1_env 1 c1_db c1_video
    [c1_entry0, c1_entry1] (by rfl) (by rfl) (by decide) (by decide)).1

/-! ### C2: a rejected status write is swallowed, not propagated -/

def c2_ra : VideoRecord := ⟨"a.mp4", "ha", "pending", 0, none, none, none⟩

def c2_rb : VideoRecord := ⟨"b.mp4", "hb", "pending", 0, none, none, none⟩

/-- An environment in which extraction succeeds for both items but the
MySQL write of the a.mp4 transition is rejected. -/
def c2_env : PipelineEnv where
  extract := fun p => some (p ++ ".wav")
  transcribe := fun _ => .error ()
  llm_step := fun _ => .error ()
  read_idioms := fun _ => .error ()
  openOk := fun _ => true
  renderOk := fun _ _ => true
  duration := fun _ => 60
  dbReadOk := fun _ => true
  dbWriteOk := fun _ p => p != "a.mp4"
  dbOccOk := fun _ _ => true
  dbRegOk := fun _ => true

def c2_db : DBState := ⟨[c2_ra, c2_rb], []⟩

/-- Counterexample to C2: the write of the a.mp4 transition is rejected,
and the intended transition is indeed discarded, but the failure does
not propagate and the stage loop is not aborted — the extractor is still
invoked for b.mp4 after the failure and b.mp4 is advanced.  The claim
that the current stage loop is aborted is false on the code:
update_video_status catches the MySQL Error and returns normally. -/
theorem c2_counterexample :
    (process_step_audio c2_env 1 c2_db).2 =
      [Invocation.audio "a.mp4", Invocation.audio "b.mp4"] ∧
    (process_step_audio c2_env 1 c2_db).1.videos.map VideoRecord.status =
      ["pending", "audio_extracted"] := by
  decide

/-- C2 amended: a persistence failure discards the intended transition
(the store is left exactly as it was) and leaves the committed rows of
other items intact, but it does not propagate: the stage loop continues
and still invokes the external processor for every remaining eligible
item. -/
theorem c2_amended_write_failure_swallowed :
    (∀ (now : Nat) (db : DBState) (path status : String)
        (kwargs : List (String × String)),
        update_video_status false now db path status kwargs = db) ∧
    (∀ (dbOk : Bool) (now : Nat) (db : DBState) (path status : String)
        (kwargs : List (String × String)) (r : VideoRecord), r ∈ db.videos →
        r.file_path ≠ path →
        r ∈ (update_video_status dbOk now db path status kwargs).videos) ∧
    (∀ (env : PipelineEnv) (now : Nat) (db : DBState),
        (process_step_audio env now db).2 =
          (get_videos_by_status (env.dbReadOk "pending") db "pending").map
            (fun v => Invocation.audio v.file_path)) := by
  refine ⟨fun now db path status kwargs => rfl, ?_, ?_⟩
  · intro dbOk now db path status kwargs r hr hne
    unfold update_video_status
    by_cases hok : dbOk = true
    · rw [if_pos hok]
      dsimp only
      have hm := List.mem_map_of_mem (fun x =>
        if x.file_path = path then apply_set_clauses x status now kwargs
        else x) hr
      dsimp only at hm
      rw [if_neg hne] at hm
      exact hm
    · rw [if_neg hok]
      exact hr
  · intro env now db
    unfold process_step_audio stage_fold
    rw [stage_fold_log]
    rw [join_singletons (fun v : VideoRecord => Invocation.audio v.file_path)]
    rfl

/-- Witness for the amended C2 at the concrete inputs of the
counterexample environment. -/
theorem c2_amended_write_failure_swallowed_witness :
    update_video_status false 1 c2_db "a.mp4" "audio_extracted"
      [("audio_path", "a.mp4.wav")] = c2_db ∧
    c2_rb ∈ (update_video_status false 1 c2_db "a.mp4" "audio_extracted"
      [("audio_path", "a.mp4.wav")]).videos ∧
    (process_step_audio c2_env 1 c2_db).2 =
      (get_videos_by_status (c2_env.dbReadOk "pending") c2_db "pending").map
        (fun v => Invocation.audio v.file_path) :=
  ⟨c2_amended_write_failure_swallowed.1 1 c2_db "a.mp4" "audio_extracted"
      [("audio_path", "a.mp4.wav")],
   c2_amended_write_failure_swallowed.2.1 false 1 c2_db "a.mp4"
      "audio_extracted" [("audio_path", "a.mp4.wav")] c2_rb (by decide)
      (by decide),
   c2_amended_write_failure_swallowed.2.2 c2_env 1 c2_db⟩

/-! ### C8: a second run over a completed store does nothing -/

lemma get_videos_by_status_empty (dbOk : Bool) (db : DBState) (s : String)
    (hall : ∀ r ∈ db.videos, r.status = "completed") (hs : s ≠ "completed") :
    get_videos_by_status dbOk db s = [] := by
  unfold get_videos_by_status
  by_cases h : dbOk = true
  · rw [if_pos h, List.filter_eq_nil_iff]
    intro r hr
    simp only [decide_eq_true_eq]
    rw [hall r hr]
    exact fun hc => hs hc.symm
  · rw [if_neg h]

/-- C8: running the pipeline against a store in which every item is
completed, over a file tree in which every discovered media file is
registered unchanged (or unreadable, or its registration write fails),
invokes zero external stage processors and mutates no record: the run
returns the store untouched and an empty invocation log. -/
theorem c8_rerun_noop (env : PipelineEnv) (hash : String → String) (now : Nat)
    (db : DBState) (files : List String)
    (hall : ∀ r ∈ db.videos, r.status = "completed")
    (hfiles : ∀ f ∈ files, has_valid_extension f = true →
      register_noop_at hash env.dbRegOk db f) :
    run_full_pipeline env hash now db files = (db, []) := by
  have ha : process_step_audio env now db = (db, []) := by
    unfold process_step_audio
    rw [get_videos_by_status_empty _ db "pending" hall (by decide)]
    rfl
  have hs : process_step_stt env now db = (db, []) := by
    unfold process_step_stt
    rw [get_videos_by_status_empty _ db "audio_extracted" hall (by decide)]
    rfl
  have hl : process_step_llm env now db = (db, []) := by
    unfold process_step_llm
    rw [get_videos_by_status_empty _ db "stt_done" hall (by decide)]
    rfl
  have hv : process_step_video env now db = (db, []) := by
    unfold process_step_video
    rw [get_videos_by_status_empty _ db "llm_done" hall (by decide)]
    rfl
  unfold run_full_pipeline
  rw [sync_folder_noop hash env.dbRegOk now files db hfiles]
  dsimp only
  rw [ha]
  dsimp only
  rw [hs]
  dsimp only
  rw [hl]
  dsimp only
  rw [hv]
  simp

def c8_record : VideoRecord :=
  ⟨"data/raw_video/ep1.mp4", "h1", "completed", 5, some "audio_cache/ep1.wav",
   some "transcripts/ep1.wav.json", some "filtered_idioms/ep1.mp4.json"⟩

/-- Witness for C8: one completed item, its file rediscovered with an
unchanged hash — the run is a complete no-op with an empty log. -/
theorem c8_rerun_noop_witness :
    run_full_pipeline c1_env (fun _ => "h1") 9 ⟨[c8_record], []⟩
      ["data/raw_video/ep1.mp4"] = (⟨[c8_record], []⟩, []) := by
  refine c8_rerun_noop c1_env (fun _ => "h1") 9 ⟨[c8_record], []⟩
    ["data/raw_video/ep1.mp4"] (by decide) ?_
  intro f hf _
  have hfe : f = "data/raw_video/ep1.mp4" := by simpa using hf
  subst hfe
  exact Or.inr (Or.inr ⟨c8_record, by decide, by decide⟩)

/-! ### C7: one item failing does not block the others -/

lemma apply_set_clauses_audio (rb : VideoRecord) (bp : String) (now : Nat) :
    apply_set_clauses rb "audio_extracted" now [("audio_path", bp)] =
      { rb with status := "audio_extracted", last_updated := now,
                audio_path := some bp } := by
  unfold apply_set_clauses set_field
  simp [allowed_fields]

/-- C7: within one runFullPipeline invocation over a store holding two
pending items, with the audio extractor failing for the first and
succeeding for the second, the transcriber failing, the store healthy
and the file tree unchanged, the second item ends at audio_extracted
with its audio artifact while the first remains pending, untouched. -/
theorem c7_failure_isolation (env : PipelineEnv) (hash : String → String)
    (now : Nat) (ra rb : VideoRecord) (occ : List IdiomRow)
    (files : List String) (bp : String)
    (ha_status : ra.status = "pending") (hb_status : rb.status = "pending")
    (hne : ra.file_path ≠ rb.file_path)
    (hextract_a : env.extract ra.file_path = none)
    (hextract_b : env.extract rb.file_path = some bp)
    (hwrite_b : env.dbWriteOk "audio_extracted" rb.file_path = true)
    (htranscribe : env.transcribe (some bp) = .error ())
    (hread : ∀ s, env.dbReadOk s = true)
    (hfiles : ∀ f ∈ files, has_valid_extension f = true →
      register_noop_at hash env.dbRegOk ⟨[ra, rb], occ⟩ f) :
    (run_full_pipeline env hash now ⟨[ra, rb], occ⟩ files).1 =
      ⟨[ra, { rb with status := "audio_extracted", last_updated := now,
                      audio_path := some bp }], occ⟩ := by
  set rb2 : VideoRecord := { rb with status := "audio_extracted",
                                     last_updated := now,
                                     audio_path := some bp } with hrb2
  set db : DBState := (⟨[ra, rb], occ⟩ : DBState) with hdb
  set dbB : DBState := (⟨[ra, rb2], occ⟩ : DBState) with hdbB
  have helig1 : get_videos_by_status (env.dbReadOk "pending") db "pending" =
      [ra, rb] := by
    unfold get_videos_by_status
    rw [hread "pending", if_pos rfl, hdb]
    simp [ha_status, hb_status]
  have h1 : audio_db_step env now db ra = db := by
    unfold audio_db_step
    rw [hextract_a]
  have h2 : audio_db_step env now db rb = dbB := by
    unfold audio_db_step
    rw [hextract_b]
    dsimp only
    rw [hwrite_b]
    unfold update_video_status
    rw [if_pos rfl]
    dsimp only
    rw [List.map_cons, List.map_cons, List.map_nil, if_neg hne, if_pos rfl,
      apply_set_clauses_audio, hdbB, hrb2]
  have haudio : (process_step_audio env now db).1 = dbB := by
    unfold process_step_audio stage_fold
    rw [stage_fold_fst, helig1, List.foldl_cons, h1, List.foldl_cons, h2,
      List.foldl_nil]
  have helig2 : get_videos_by_status (env.dbReadOk "audio_extracted") dbB
      "audio_extracted" = [rb2] := by
    unfold get_videos_by_status
    rw [hread "audio_extracted", if_pos rfl, hdbB]
    simp [ha_status, hrb2]
  have h3 : stt_db_step env now dbB rb2 = dbB := by
    unfold stt_db_step
    rw [hrb2]
    dsimp only
    rw [htranscribe]
  have hstt : (process_step_stt env now dbB).1 = dbB := by
    unfold process_step_stt stage_fold
    rw [stage_fold_fst, helig2, List.foldl_cons, h3, List.foldl_nil]
  have helig3 : get_videos_by_status (env.dbReadOk "stt_done") dbB
      "stt_done" = [] := by
    unfold get_videos_by_status
    rw [hread "stt_done", if_pos rfl, hdbB]
    simp [ha_status, hrb2]
  have hllm : (process_step_llm env now dbB).1 = dbB := by
    unfold process_step_llm stage_fold
    rw [stage_fold_fst, helig3, List.foldl_nil]
  have helig4 : get_videos_by_status (env.dbReadOk "llm_done") dbB
      "llm_done" = [] := by
    unfold get_videos_by_status
    rw [hread "llm_done", if_pos rfl, hdbB]
    simp [ha_status, hrb2]
  have hvid : (process_step_video env now dbB).1 = dbB := by
    unfold process_step_video stage_fold
    rw [stage_fold_fst, helig4, List.foldl_nil]
  unfold run_full_pipeline
  dsimp only
  rw [sync_folder_noop hash env.dbRegOk now files db hfiles, haudio, hstt,
    hllm, hvid]

def c7_ra : VideoRecord :=
  ⟨"data/raw_video/a.mp4", "ha", "pending", 0, none, none, none⟩

def c7_rb : VideoRecord :=
  ⟨"data/raw_video/b.mp4", "hb", "pending", 0, none, none, none⟩

/-- The C7 witness environment: extraction fails for a.mp4, succeeds
for b.mp4, the transcriber fails, the store is healthy. -/
def c7_env : PipelineEnv where
  extract := fun p =>
    if p = "data/raw_video/b.mp4" then some "audio_cache/b.wav" else none
  transcribe := fun _ => .error ()
  llm_step := fun _ => .error ()
  read_idioms := fun _ => .error ()
  openOk := fun _ => true
  renderOk := fun _ _ => true
  duration := fun _ => 60
  dbReadOk := fun _ => true
  dbWriteOk := fun _ _ => true
  dbOccOk := fun _ _ => true
  dbRegOk := fun _ => true

def c7_hash : String → String :=
  fun p => if p = "data/raw_video/a.mp4" then "ha" else "hb"

/-- Witness for C7: after one full run, b.mp4 reached audio_extracted
with its audio artifact and a.mp4 is still pending and untouched. -/
theorem c7_failure_isolation_witness :
    (run_full_pipeline c7_env c7_hash 4 ⟨[c7_ra, c7_rb], []⟩
        ["data/raw_video/a.mp4", "data/raw_video/b.mp4"]).1 =
      ⟨[c7_ra, { c7_rb with status := "audio_extracted", last_updated := 4,
                            audio_path := some "audio_cache/b.wav" }], []⟩ := by
  refine c7_failure_isolation c7_env c7_hash 4 c7_ra c7_rb []
    ["data/raw_video/a.mp4", "data/raw_video/b.mp4"] "audio_cache/b.wav"
    (by decide) (by decide) (by decide) (by decide) (by decide) (by decide)
    (by rfl) (fun s => rfl) ?_
  intro f hf _
  rcases (by simpa using hf : f = "data/raw_video/a.mp4" ∨
      f = "data/raw_video/b.mp4") with rfl | rfl
  · exact Or.inr (Or.inr ⟨c7_ra, by decide, by decide⟩)
  · exact Or.inr (Or.inr ⟨c7_rb, by decide, by decide⟩)

/-! ### C9: status only moves forward, one stage at a time -/

/-- The per-record effect of one stage loop with precondition pre and
postcondition post: a record is either left exactly as it was or
advanced from pre to post. -/
def stage_rel (pre post : String) (r r2 : VideoRecord) : Prop :=
  r2 = r ∨ (r.status = pre ∧ r2.status = post)

/-- The UNIQUE constraint on the file_path column. -/
def paths_nodup (db : DBState) : Prop :=
  (db.videos.map VideoRecord.file_path).Nodup

lemma forall2_stage_rel_refl (pre post : String) (l : List VideoRecord) :
    List.Forall₂ (stage_rel pre post) l l :=
  List.forall₂_same.mpr fun _ _ => Or.inl rfl

lemma update_map_paths (now : Nat) (kwargs : List (String × String))
    (post path : String) (l : List VideoRecord) :
    ((l.map fun r => if r.file_path = path then
        apply_set_clauses r post now kwargs else r).map
      VideoRecord.file_path) = l.map VideoRecord.file_path := by
  rw [List.map_map]
  refine List.map_congr_left fun r _ => ?_
  dsimp only [Function.comp]
  by_cases hp : r.file_path = path
  · rw [if_pos hp]
    exact apply_set_clauses_file_path r post now kwargs
  · rw [if_neg hp]

lemma forall2_update (pre post : String) (now : Nat)
    (kwargs : List (String × String)) (path : String) :
    ∀ (l0 l : List VideoRecord),
      List.Forall₂ (stage_rel pre post) l0 l →
      l0.map VideoRecord.file_path = l.map VideoRecord.file_path →
      (∀ r0 ∈ l0, r0.file_path = path → r0.status = pre) →
      List.Forall₂ (stage_rel pre post) l0
        (l.map fun r => if r.file_path = path then
          apply_set_clauses r post now kwargs else r) := by
  intro l0 l h
  induction h with
  | nil =>
      intro _ _
      exact List.Forall₂.nil
  | @cons a b l1 l2 hab htail ih =>
      intro hpaths hpre
      rw [List.map_cons] at hpaths ⊢
      rw [List.map_cons] at hpaths
      have hhead : a.file_path = b.file_path := by
        injection hpaths
      have htl : l1.map VideoRecord.file_path = l2.map VideoRecord.file_path := by
        injection hpaths
      refine List.Forall₂.cons ?_
        (ih htl fun r0 hr0 => hpre r0 (List.mem_cons_of_mem a hr0))
      by_cases hp : b.file_path = path
      · rw [if_pos hp]
        exact Or.inr ⟨hpre a (List.mem_cons_self a l1) (hhead.trans hp),
          apply_set_clauses_status b post now kwargs⟩
      · rw [if_neg hp]
        exact hab

/-- The invariant carried through one stage loop: the record list stays
pointwise related by stage_rel and keeps its path column. -/
lemma stage_foldl_rel (pre post : String) (now : Nat)
    (f : DBState → VideoRecord → DBState)
    (hf : ∀ (db : DBState) (v : VideoRecord),
      (f db v).videos = db.videos ∨
      ∃ (b : Bool) (kwargs : List (String × String)),
        (f db v).videos =
          (update_video_status b now db v.file_path post kwargs).videos)
    (db0 : DBState) (hnd : paths_nodup db0) :
    ∀ (L : List VideoRecord) (db : DBState),
      (∀ v ∈ L, v ∈ db0.videos ∧ v.status = pre) →
      List.Forall₂ (stage_rel pre post) db0.videos db.videos →
      db0.videos.map VideoRecord.file_path =
        db.videos.map VideoRecord.file_path →
      List.Forall₂ (stage_rel pre post) db0.videos (L.foldl f db).videos ∧
      db0.videos.map VideoRecord.file_path =
        (L.foldl f db).videos.map VideoRecord.file_path := by
  intro L
  induction L with
  | nil =>
      intro db _ h1 h2
      exact ⟨h1, h2⟩
  | cons v vs ih =>
      intro db hL h1 h2
      rw [List.foldl_cons]
      have hv : v ∈ db0.videos ∧ v.status = pre :=
        hL v (List.mem_cons_self v vs)
      have hpre : ∀ r0 ∈ db0.videos, r0.file_path = v.file_path →
          r0.status = pre := by
        intro r0 hr0 hp
        have : r0 = v :=
          List.inj_on_of_nodup_map hnd hr0 hv.1 hp
        rw [this]
        exact hv.2
      have hstep : List.Forall₂ (stage_rel pre post) db0.videos
            (f db v).videos ∧
          db0.videos.map VideoRecord.file_path =
            (f db v).videos.map VideoRecord.file_path := by
        rcases hf db v with heq | ⟨b, kwargs, heq⟩
        · rw [heq]
          exact ⟨h1, h2⟩
        · rw [heq]
          unfold update_video_status
          by_cases hb : b = true
          · rw [if_pos hb]
            dsimp only
            refine ⟨forall2_update pre post now kwargs v.file_path
              db0.videos db.videos h1 h2 hpre, ?_⟩
            rw [update_map_paths]
            exact h2
          · rw [if_neg hb]
            exact ⟨h1, h2⟩
      exact ih (f db v) (fun w hw => hL w (List.mem_cons_of_mem v hw))
        hstep.1 hstep.2

lemma get_videos_by_status_sub (dbOk : Bool) (db : DBState) (s : String) :
    ∀ v ∈ get_videos_by_status dbOk db s, v ∈ db.videos ∧ v.status = s := by
  intro v hv
  unfold get_videos_by_status at hv
  by_cases h : dbOk = true
  · rw [if_pos h] at hv
    exact ⟨List.mem_of_mem_filter hv, by simpa using List.of_mem_filter hv⟩
  · rw [if_neg h] at hv
    cases hv

lemma update_videos_congr (b : Bool) (now : Nat) (db1 db2 : DBState)
    (h : db1.videos = db2.videos) (path status : String)
    (kwargs : List (String × String)) :
    (update_video_status b now db1 path status kwargs).videos =
      (update_video_status b now db2 path status kwargs).videos := by
  unfold update_video_status
  by_cases hb : b = true
  · rw [if_pos hb, if_pos hb]
    dsimp only
    rw [h]
  · rw [if_neg hb, if_neg hb]
    exact h

lemma audio_db_step_shape (env : PipelineEnv) (now : Nat) (db : DBState)
    (v : VideoRecord) :
    (audio_db_step env now db v).videos = db.videos ∨
    ∃ (b : Bool) (kwargs : List (String × String)),
      (audio_db_step env now db v).videos =
        (update_video_status b now db v.file_path "audio_extracted"
          kwargs).videos := by
  unfold audio_db_step
  cases hx : env.extract v.file_path with
  | none => exact Or.inl rfl
  | some ap =>
      exact Or.inr ⟨env.dbWriteOk "audio_extracted" v.file_path,
        [("audio_path", ap)], rfl⟩

lemma stt_db_step_shape (env : PipelineEnv) (now : Nat) (db : DBState)
    (v : VideoRecord) :
    (stt_db_step env now db v).videos = db.videos ∨
    ∃ (b : Bool) (kwargs : List (String × String)),
      (stt_db_step env now db v).videos =
        (update_video_status b now db v.file_path "stt_done"
          kwargs).videos := by
  unfold stt_db_step
  cases ht : env.transcribe v.audio_path with
  | error e => exact Or.inl rfl
  | ok u =>
      cases ha : v.audio_path with
      | none => exact Or.inl rfl
      | some ap =>
          exact Or.inr ⟨env.dbWriteOk "stt_done" v.file_path,
            [("transcript_path", "transcripts/" ++ basename ap ++ ".json")],
            rfl⟩

lemma llm_db_step_shape (env : PipelineEnv) (now : Nat) (db : DBState)
    (v : VideoRecord) :
    (llm_db_step env now db v).videos = db.videos ∨
    ∃ (b : Bool) (kwargs : List (String × String)),
      (llm_db_step env now db v).videos =
        (update_video_status b now db v.file_path "llm_done"
          kwargs).videos := by
  unfold llm_db_step
  cases ht : env.llm_step v.transcript_path with
  | error e => exact Or.inl rfl
  | ok u =>
      exact Or.inr ⟨env.dbWriteOk "llm_done" v.file_path,
        [("idioms_path", "filtered_idioms/" ++ basename v.file_path ++
          ".json")], rfl⟩

lemma video_db_step_shape (env : PipelineEnv) (now : Nat) (db : DBState)
    (v : VideoRecord) :
    (video_db_step env now db v).videos = db.videos ∨
    ∃ (b : Bool) (kwargs : List (String × String)),
      (video_db_step env now db v).videos =
        (update_video_status b now db v.file_path "completed"
          kwargs).videos := by
  unfold video_db_step
  cases hr : env.read_idioms v.idioms_path with
  | error e => exact Or.inl rfl
  | ok idioms =>
      refine Or.inr ⟨env.dbWriteOk "completed" v.file_path, [], ?_⟩
      dsimp only
      exact update_videos_congr _ now _ db (occ_fold_videos env now
        v.file_path _ db) v.file_path "completed" []

/-- C9: within every operation of the core, an item status only moves
forward along the fixed order by exactly one stage transition — each
stage loop leaves every record either untouched or advanced from that
stage precondition status to its postcondition status — and the only
backward move is the registry fingerprint reset, which can only set a
record status to pending (and only ever inserts fresh records at
pending). -/
theorem c9_status_monotone :
    (∀ (env : PipelineEnv) (now : Nat) (db : DBState), paths_nodup db →
      List.Forall₂ (stage_rel "pending" "audio_extracted") db.videos
        (process_step_audio env now db).1.videos) ∧
    (∀ (env : PipelineEnv) (now : Nat) (db : DBState), paths_nodup db →
      List.Forall₂ (stage_rel "audio_extracted" "stt_done") db.videos
        (process_step_stt env now db).1.videos) ∧
    (∀ (env : PipelineEnv) (now : Nat) (db : DBState), paths_nodup db →
      List.Forall₂ (stage_rel "stt_done" "llm_done") db.videos
        (process_step_llm env now db).1.videos) ∧
    (∀ (env : PipelineEnv) (now : Nat) (db : DBState), paths_nodup db →
      List.Forall₂ (stage_rel "llm_done" "completed") db.videos
        (process_step_video env now db).1.videos) ∧
    (∀ (hash : String → String) (dbOk : Bool) (now : Nat) (db : DBState)
        (p : String),
      List.Forall₂ (fun r r2 => r2 = r ∨ r2.status = "pending") db.videos
        ((register_video hash dbOk now db p).videos.take
          db.videos.length) ∧
      ∀ r ∈ (register_video hash dbOk now db p).videos.drop
        db.videos.length, r.status = "pending") := by
  refine ⟨?_, ?_, ?_, ?_, ?_⟩
  · intro env now db hnd
    unfold process_step_audio stage_fold
    rw [stage_fold_fst]
    exact (stage_foldl_rel "pending" "audio_extracted" now
      (audio_db_step env now) (audio_db_step_shape env now) db hnd _ db
      (get_videos_by_status_sub _ db "pending")
      (forall2_stage_rel_refl _ _ _) rfl).1
  · intro env now db hnd
    unfold process_step_stt stage_fold
    rw [stage_fold_fst]
    exact (stage_foldl_rel "audio_extracted" "stt_done" now
      (stt_db_step env now) (stt_db_step_shape env now) db hnd _ db
      (get_videos_by_status_sub _ db "audio_extracted")
      (forall2_stage_rel_refl _ _ _) rfl).1
  · intro env now db hnd
    unfold process_step_llm stage_fold
    rw [stage_fold_fst]
    exact (stage_foldl_rel "stt_done" "llm_done" now
      (llm_db_step env now) (llm_db_step_shape env now) db hnd _ db
      (get_videos_by_status_sub _ db "stt_done")
      (forall2_stage_rel_refl _ _ _) rfl).1
  · intro env now db hnd
    unfold process_step_video stage_fold
    rw [stage_fold_fst]
    exact (stage_foldl_rel "llm_done" "completed" now
      (video_db_step env now) (video_db_step_shape env now) db hnd _ db
      (get_videos_by_status_sub _ db "llm_done")
      (forall2_stage_rel_refl _ _ _) rfl).1
  · intro hash dbOk now db p
    unfold register_video
    dsimp only
    by_cases h1 : hash p = ""
    · rw [if_pos h1]
      constructor
      · rw [List.take_length]
        exact List.forall₂_same.mpr fun _ _ => Or.inl rfl
      · rw [List.drop_length]
        intro r hr
        cases hr
    rw [if_neg h1]
    by_cases h2 : dbOk = true
    · rw [if_pos h2]
      rcases hfind : db.videos.find? (fun r => r.file_path = p) with _ | row
      · rw [hfind]
        dsimp only
        constructor
        · rw [List.take_left]
          exact List.forall₂_same.mpr fun _ _ => Or.inl rfl
        · rw [List.drop_left]
          intro r hr
          have : r = ⟨p, hash p, "pending", now, none, none, none⟩ := by
            simpa using hr
          rw [this]
      · rw [hfind]
        dsimp only
        by_cases hch : row.file_hash ≠ hash p
        · rw [if_pos hch]
          dsimp only
          constructor
          · have hlen : db.videos.length = (db.videos.map fun r =>
                if r.file_path = p then
                  { r with file_hash := hash p, status := "pending",
                           last_updated := now }
                else r).length := (List.length_map _ _).symm
            rw [hlen, List.take_length]
            refine List.forall₂_map_right_iff.mpr
              (List.forall₂_same.mpr fun r _ => ?_)
            by_cases hp : r.file_path = p
            · rw [if_pos hp]
              exact Or.inr rfl
            · rw [if_neg hp]
              exact Or.inl rfl
          · have hlen : db.videos.length = (db.videos.map fun r =>
                if r.file_path = p then
                  { r with file_hash := hash p, status := "pending",
                           last_updated := now }
                else r).length := (List.length_map _ _).symm
            rw [hlen, List.drop_length]
            intro r hr
            cases hr
        · rw [if_neg hch]
          constructor
          · rw [List.take_length]
            exact List.forall₂_same.mpr fun _ _ => Or.inl rfl
          · rw [List.drop_length]
            intro r hr
            cases hr
    · rw [if_neg h2]
      constructor
      · rw [List.take_length]
        exact List.forall₂_same.mpr fun _ _ => Or.inl rfl
      · rw [List.drop_length]
        intro r hr
        cases hr

/-- Witness for C9 at concrete inputs: the audio stage over the two
pending items of the C2 store only performs pending to audio_extracted
moves, and a register call that resets a changed item only moves it to
pending. -/
theorem c9_status_monotone_witness :
    paths_nodup c2_db ∧
    List.Forall₂ (stage_rel "pending" "audio_extracted") c2_db.videos
      (process_step_audio c2_env 1 c2_db).1.videos ∧
    List.Forall₂ (fun r r2 => r2 = r ∨ r2.status = "pending")
      c2_db.videos
      ((register_video (fun _ => "h9") true 3 c2_db "a.mp4").videos.take
        c2_db.videos.length) :=
  ⟨by unfold paths_nodup; decide,
   c9_status_monotone.1 c2_env 1 c2_db (by unfold paths_nodup; decide),
   (c9_status_monotone.2.2.2.2 (fun _ => "h9") true 3 c2_db "a.mp4").1⟩

end FrxxzIdiom
